import Mathlib

/-!
Verification development for the RFB (VNC) client engine of the lise_2.0
repository (src/agent/vnc_widget.py).  Bytes are modelled as `Nat` values
below 256, byte streams as `List Nat`, and the stateful socket loop as
explicit state passing over finite event traces.  The DES primitive used by
the authentication step (the third-party pure-Python `des` package, invoked
as `des.DesKey(key).encrypt(challenge, padding=True)`) is embedded in full:
standard single-DES on 64-bit blocks, ECB composition, and PKCS#5 padding.
-/

namespace Vnc

/-! ## Bit and byte utilities -/

/-- Numeric value of one bit. -/
def bitVal (b : Bool) : Nat := cond b 1 0

/-- Most-significant-bit-first bits of one byte. -/
def byteToBits (b : Nat) : List Bool :=
  [b / 128 % 2 = 1, b / 64 % 2 = 1, b / 32 % 2 = 1, b / 16 % 2 = 1,
   b / 8 % 2 = 1, b / 4 % 2 = 1, b / 2 % 2 = 1, b % 2 = 1]

/-- Concatenated MSB-first bits of a byte string. -/
def bytesToBits : List Nat → List Bool
  | [] => []
  | b :: rest => byteToBits b ++ bytesToBits rest

/-- Repack an MSB-first bit string into bytes, eight bits at a time. -/
def bitsToBytes : List Bool → List Nat
  | b1 :: b2 :: b3 :: b4 :: b5 :: b6 :: b7 :: b8 :: rest =>
      (128 * bitVal b1 + 64 * bitVal b2 + 32 * bitVal b3 + 16 * bitVal b4 +
       8 * bitVal b5 + 4 * bitVal b6 + 2 * bitVal b7 + bitVal b8) :: bitsToBytes rest
  | _ => []

/-- Bitwise exclusive or of two bit strings (pointwise, truncating). -/
def xorBits (a b : List Bool) : List Bool := List.zipWith xor a b

/-- Apply a DES permutation table (1-indexed source positions). -/
def permute (table : List Nat) (v : List Bool) : List Bool :=
  table.map (fun i => v.getD (i - 1) false)

/-- Rotate a bit string left by `s` positions. -/
def rotL (s : Nat) (v : List Bool) : List Bool := v.drop s ++ v.take s

/-! ## Standard DES tables (as used by the pure-Python des package) -/

/-- DES initial permutation. -/
def IP : List Nat :=
  [58, 50, 42, 34, 26, 18, 10, 2, 60, 52, 44, 36, 28, 20, 12, 4,
   62, 54, 46, 38, 30, 22, 14, 6, 64, 56, 48, 40, 32, 24, 16, 8,
   57, 49, 41, 33, 25, 17, 9, 1, 59, 51, 43, 35, 27, 19, 11, 3,
   61, 53, 45, 37, 29, 21, 13, 5, 63, 55, 47, 39, 31, 23, 15, 7]

/-- DES final permutation (inverse of `IP`). -/
def FP : List Nat :=
  [40, 8, 48, 16, 56, 24, 64, 32, 39, 7, 47, 15, 55, 23, 63, 31,
   38, 6, 46, 14, 54, 22, 62, 30, 37, 5, 45, 13, 53, 21, 61, 29,
   36, 4, 44, 12, 52, 20, 60, 28, 35, 3, 43, 11, 51, 19, 59, 27,
   34, 2, 42, 10, 50, 18, 58, 26, 33, 1, 41, 9, 49, 17, 57, 25]

/-- DES expansion of the 32-bit half block to 48 bits. -/
def EXP : List Nat :=
  [32, 1, 2, 3, 4, 5, 4, 5, 6, 7, 8, 9, 8, 9, 10, 11, 12, 13,
   12, 13, 14, 15, 16, 17, 16, 17, 18, 19, 20, 21, 20, 21, 22, 23, 24, 25,
   24, 25, 26, 27, 28, 29, 28, 29, 30, 31, 32, 1]

/-- DES permutation applied after the S-boxes. -/
def PBOX : List Nat :=
  [16, 7, 20, 21, 29, 12, 28, 17, 1, 15, 23, 26, 5, 18, 31, 10,
   2, 8, 24, 14, 32, 27, 3, 9, 19, 13, 30, 6, 22, 11, 4, 25]

/-- DES key permuted choice 1 (64 key bits to 56). -/
def PC1 : List Nat :=
  [57, 49, 41, 33, 25, 17, 9, 1, 58, 50, 42, 34, 26, 18,
   10, 2, 59, 51, 43, 35, 27, 19, 11, 3, 60, 52, 44, 36,
   63, 55, 47, 39, 31, 23, 15, 7, 62, 54, 46, 38, 30, 22,
   14, 6, 61, 53, 45, 37, 29, 21, 13, 5, 28, 20, 12, 4]

/-- DES key permuted choice 2 (56 key bits to 48). -/
def PC2 : List Nat :=
  [14, 17, 11, 24, 1, 5, 3, 28, 15, 6, 21, 10,
   23, 19, 12, 4, 26, 8, 16, 7, 27, 20, 13, 2,
   41, 52, 31, 37, 47, 55, 30, 40, 51, 45, 33, 48,
   44, 49, 39, 56, 34, 53, 46, 42, 50, 36, 29, 32]

/-- Per-round left-rotation amounts of the DES key schedule. -/
def SHIFTS : List Nat := [1, 1, 2, 2, 2, 2, 2, 2, 1, 2, 2, 2, 2, 2, 2, 1]

/-- The eight DES S-boxes, each flattened row-major (row from bits 1 and 6,
column from bits 2 to 5). -/
def SBOX : List (List Nat) :=
  [[14, 4, 13, 1, 2, 15, 11, 8, 3, 10, 6, 12, 5, 9, 0, 7,
    0, 15, 7, 4, 14, 2, 13, 1, 10, 6, 12, 11, 9, 5, 3, 8,
    4, 1, 14, 8, 13, 6, 2, 11, 15, 12, 9, 7, 3, 10, 5, 0,
    15, 12, 8, 2, 4, 9, 1, 7, 5, 11, 3, 14, 10, 0, 6, 13],
   [15, 1, 8, 14, 6, 11, 3, 4, 9, 7, 2, 13, 12, 0, 5, 10,
    3, 13, 4, 7, 15, 2, 8, 14, 12, 0, 1, 10, 6, 9, 11, 5,
    0, 14, 7, 11, 10, 4, 13, 1, 5, 8, 12, 6, 9, 3, 2, 15,
    13, 8, 10, 1, 3, 15, 4, 2, 11, 6, 7, 12, 0, 5, 14, 9],
   [10, 0, 9, 14, 6, 3, 15, 5, 1, 13, 12, 7, 11, 4, 2, 8,
    13, 7, 0, 9, 3, 4, 6, 10, 2, 8, 5, 14, 12, 11, 15, 1,
    13, 6, 4, 9, 8, 15, 3, 0, 11, 1, 2, 12, 5, 10, 14, 7,
    1, 10, 13, 0, 6, 9, 8, 7, 4, 15, 14, 3, 11, 5, 2, 12],
   [7, 13, 14, 3, 0, 6, 9, 10, 1, 2, 8, 5, 11, 12, 4, 15,
    13, 8, 11, 5, 6, 15, 0, 3, 4, 7, 2, 12, 1, 10, 14, 9,
    10, 6, 9, 0, 12, 11, 7, 13, 15, 1, 3, 14, 5, 2, 8, 4,
    3, 15, 0, 6, 10, 1, 13, 8, 9, 4, 5, 11, 12, 7, 2, 14],
   [2, 12, 4, 1, 7, 10, 11, 6, 8, 5, 3, 15, 13, 0, 14, 9,
    14, 11, 2, 12, 4, 7, 13, 1, 5, 0, 15, 10, 3, 9, 8, 6,
    4, 2, 1, 11, 10, 13, 7, 8, 15, 9, 12, 5, 6, 3, 0, 14,
    11, 8, 12, 7, 1, 14, 2, 13, 6, 15, 0, 9, 10, 4, 5, 3],
   [12, 1, 10, 15, 9, 2, 6, 8, 0, 13, 3, 4, 14, 7, 5, 11,
    10, 15, 4, 2, 7, 12, 9, 5, 6, 1, 13, 14, 0, 11, 3, 8,
    9, 14, 15, 5, 2, 8, 12, 3, 7, 0, 4, 10, 1, 13, 11, 6,
    4, 3, 2, 12, 9, 5, 15, 10, 11, 14, 1, 7, 6, 0, 8, 13],
   [4, 11, 2, 14, 15, 0, 8, 13, 3, 12, 9, 7, 5, 10, 6, 1,
    13, 0, 11, 7, 4, 9, 1, 10, 14, 3, 5, 12, 2, 15, 8, 6,
    1, 4, 11, 13, 12, 3, 7, 14, 10, 15, 6, 8, 0, 5, 9, 2,
    6, 11, 13, 8, 1, 4, 10, 7, 9, 5, 0, 15, 14, 2, 3, 12],
   [13, 2, 8, 4, 6, 15, 11, 1, 10, 9, 3, 14, 5, 0, 12, 7,
    1, 15, 13, 8, 10, 3, 7, 4, 12, 5, 6, 11, 0, 14, 9, 2,
    7, 11, 4, 1, 9, 12, 14, 2, 0, 6, 10, 13, 15, 3, 5, 8,
    2, 1, 14, 7, 4, 10, 8, 13, 15, 12, 9, 0, 3, 5, 6, 11]]

/-! ## DES block encryption -/

/-- Low four bits of an S-box output value, MSB first. -/
def natTo4Bits (n : Nat) : List Bool :=
  [n / 8 % 2 = 1, n / 4 % 2 = 1, n / 2 % 2 = 1, n % 2 = 1]

/-- Look up S-box `i` on a six-bit group: bits 1 and 6 select the row, bits
2 to 5 the column. -/
def sboxBits (i : Nat) (six : List Bool) : List Bool :=
  let b := fun j => bitVal (six.getD j false)
  let row := 2 * b 0 + b 5
  let col := 8 * b 1 + 4 * b 2 + 2 * b 3 + b 4
  natTo4Bits ((SBOX.getD i []).getD (16 * row + col) 0)

/-- The DES round function on the 32-bit right half. -/
def desF (r k : List Bool) : List Bool :=
  let e := xorBits (permute EXP r) k
  let s := ((List.range 8).map (fun i => sboxBits i ((e.drop (6 * i)).take 6))).flatten
  permute PBOX s

/-- Sixteen Feistel rounds driven by the subkey list. -/
def feistel : List (List Bool) → List Bool → List Bool → List Bool × List Bool
  | [], l, r => (l, r)
  | k :: ks, l, r => feistel ks r (xorBits l (desF r k))

/-- Generate one 48-bit subkey per shift-schedule entry. -/
def subkeysAux : List Nat → List Bool → List Bool → List (List Bool)
  | [], _, _ => []
  | s :: ss, c, d =>
    let c2 := rotL s c
    let d2 := rotL s d
    permute PC2 (c2 ++ d2) :: subkeysAux ss c2 d2

/-- The 16 round subkeys of an 8-byte DES key. -/
def subkeys (key : List Nat) : List (List Bool) :=
  let k := permute PC1 (bytesToBits key)
  subkeysAux SHIFTS (k.take 28) (k.drop 28)

/-- Single-DES encryption of one 8-byte block. -/
def des_encrypt_block (key block : List Nat) : List Nat :=
  let b := permute IP (bytesToBits block)
  let lr := feistel (subkeys key) (b.take 32) (b.drop 32)
  bitsToBytes (permute FP (lr.2 ++ lr.1))

/-! ## ECB composition with PKCS#5 padding

The method `encrypt(message, padding=True)` of the des package first appends PKCS#5
padding (`8 - len % 8` bytes, each holding that count — a full extra block
when the message length is already a multiple of eight), then encrypts each
8-byte block independently (ECB: no initial value was supplied). -/

/-- PKCS#5 padding as applied by the des package for `padding=True`. -/
def pkcs5pad (msg : List Nat) : List Nat :=
  msg ++ List.replicate (8 - msg.length % 8) (8 - msg.length % 8)

/-- Encrypt consecutive 8-byte blocks independently (ECB). -/
def desEcb (key : List Nat) : List Nat → List Nat
  | b1 :: b2 :: b3 :: b4 :: b5 :: b6 :: b7 :: b8 :: rest =>
      des_encrypt_block key [b1, b2, b3, b4, b5, b6, b7, b8] ++ desEcb key rest
  | _ => []

/-- Model of `DesKey(key).encrypt(msg, padding=True)` from the des package. -/
def des_encrypt_padded (key msg : List Nat) : List Nat :=
  desEcb key (pkcs5pad msg)

/-! ## VNC key derivation (vnc_widget.py, `_get_des_key`, lines 226-237) -/

/-- Reverse the bit order of one byte, as in the inner loop of the source. -/
def reverseByte (b : Nat) : Nat :=
  (List.range 8).foldl
    (fun acc j => if b &&& (1 <<< j) != 0 then acc ||| (1 <<< (7 - j)) else acc) 0

/-- Model of the Python expression `password.ljust(8, chr 0)[:8]`: left-justify with NUL padding,
then truncate to exactly eight bytes. -/
def padTrunc8 (pw : List Nat) : List Nat :=
  (pw ++ List.replicate (8 - pw.length) 0).take 8

/-- Model of `_get_des_key`: pad/truncate the password to 8 bytes, then bit-reverse
every byte independently. -/
def get_des_key (password : List Nat) : List Nat :=
  (padTrunc8 password).map reverseByte

/-- The authentication response computed at vnc_widget.py lines 97-100:
`des.DesKey(self._get_des_key(password)).encrypt(challenge, padding=True)`. -/
def vnc_auth_response (password challenge : List Nat) : List Nat :=
  des_encrypt_padded (get_des_key password) challenge

/-! ## Wire integer encodings (struct.pack / struct.unpack, big endian) -/

/-- Encode a 16-bit value big endian (`struct.pack` with format H). -/
def be16enc (n : Nat) : List Nat := [n / 256 % 256, n % 256]

/-- Encode a 32-bit value big endian (`struct.pack` with formats I and i,
for the non-negative values the client sends). -/
def be32enc (n : Nat) : List Nat :=
  [n / 16777216 % 256, n / 65536 % 256, n / 256 % 256, n % 256]

/-- Decode a big-endian 16-bit value (`struct.unpack` with format H). -/
def be16 (l : List Nat) : Nat := 256 * l.getD 0 0 + l.getD 1 0

/-- Decode a big-endian unsigned 32-bit value (`struct.unpack` format I). -/
def be32 (l : List Nat) : Nat :=
  16777216 * l.getD 0 0 + 65536 * l.getD 1 0 + 256 * l.getD 2 0 + l.getD 3 0

/-- Decode a big-endian signed 32-bit value (`struct.unpack` format i, used
for the rectangle encoding id). -/
def be32s (l : List Nat) : Int :=
  if be32 l < 2147483648 then (be32 l : Int) else (be32 l : Int) - 4294967296

/-! ## Version echo (vnc_widget.py, `_vnc_thread`, lines 82-84)

The source computes `version = self._recv(12).decode().strip()` and then
sends `version.encode()`: on an ASCII version line, decode/encode are the
identity and `strip` removes leading and trailing ASCII whitespace. -/

/-- Python `str.strip` whitespace, restricted to ASCII code points. -/
def isPySpace (b : Nat) : Bool :=
  b == 32 || b == 9 || b == 10 || b == 13 || b == 11 || b == 12

/-- Python `s.strip()` on an ASCII byte string. -/
def pyStrip (s : List Nat) : List Nat :=
  ((s.dropWhile isPySpace).reverse.dropWhile isPySpace).reverse

/-- The bytes the client writes back for a received ASCII version line. -/
def echoVersion (line : List Nat) : List Nat := pyStrip line

/-! ## Client messages sent after ServerInit (lines 125-132) -/

/-- SetEncodings, `struct.pack` format BBHi with values 2, 0, 1, 0: message
type 2, one padding byte, one encoding, Raw (id 0). -/
def setEncodingsMsg : List Nat := [2, 0] ++ be16enc 1 ++ be32enc 0

/-- FramebufferUpdateRequest, `struct.pack` format BBHHHH with values
3, incremental, 0, 0, w, h. -/
def fbUpdateRequest (incremental w h : Nat) : List Nat :=
  [3, incremental] ++ be16enc 0 ++ be16enc 0 ++ be16enc w ++ be16enc h

/-- The complete list of client messages `_vnc_thread` sends between the
end of ServerInit parsing and the first server message read: SetEncodings,
then the non-incremental full-screen update request.  No other message is
sent in this window. -/
def negotiationMessages (w h : Nat) : List (List Nat) :=
  [setEncodingsMsg, fbUpdateRequest 0 w h]

/-! ## The Transport exact-length read (`_recv`, lines 58-74)

The loop `while len(data) < length and self.is_running` accumulates chunks
from `sock.recv(length - len(data))`.  An empty chunk raises
ConnectionAborted; a socket timeout propagates.  The socket is modelled as
a finite trace of recv outcomes (a chunk of bytes, or a timeout); an
exhausted trace stands for a server that sends nothing more, which the
10-second socket deadline turns into a timeout.  The `is_running` flag, a
field written concurrently by `disconnect_vnc`, is modelled as the list of
values the loop observes at its successive iteration checks (exhausting
the list means the flag stays true). -/

/-- One outcome of a single `sock.recv` call. -/
inductive RecvEv where
  | chunk : List Nat → RecvEv
  | tmo : RecvEv
deriving DecidableEq

/-- Result of `_recv`: the accumulated bytes, or a raised exception. -/
inductive RecvOut where
  | ok : List Nat → RecvOut
  | timeoutErr : RecvOut
  | closedErr : RecvOut
deriving DecidableEq

/-- Model of `_recv(length)` over a finite socket trace, threading the accumulator
and the successively observed `is_running` values. -/
def recv (n : Nat) : List Bool → List RecvEv → List Nat → RecvOut
  | flags, [], acc =>
    if acc.length < n ∧ flags.headD true = true then .timeoutErr else .ok acc
  | flags, .tmo :: _, acc =>
    if acc.length < n ∧ flags.headD true = true then .timeoutErr else .ok acc
  | flags, .chunk [] :: _, acc =>
    if acc.length < n ∧ flags.headD true = true then .closedErr else .ok acc
  | flags, .chunk (b :: bs) :: rest, acc =>
    if acc.length < n ∧ flags.headD true = true then
      recv n flags.tail rest (acc ++ (b :: bs).take (n - acc.length))
    else .ok acc

/-! ## Framebuffer update parsing (lines 168-210)

Message payloads are parsed from an already-received byte list; `readN`
models a `_recv` call that either returns exactly `n` bytes or raises
because the connection is closed (the loop-terminating case). -/

/-- Take exactly `n` bytes off the front of a stream, or fail. -/
def readN (n : Nat) (s : List Nat) : Option (List Nat × List Nat) :=
  if n ≤ s.length then some (s.take n, s.drop n) else none

/-- Pixel writes of `_handle_raw_rectangle` (lines 199-210): one entry per
executed `setPixel(x+i, y+j, color)` call, in iteration order.  Positions
failing the bounds guard are skipped; `color` packs BGRA wire bytes into
ARGB. -/
def rawRectWrites (x y w h fbW fbH : Nat) (data : List Nat) :
    List (Nat × Nat × Nat) :=
  ((List.range h).map (fun j =>
    (List.range w).filterMap (fun i =>
      if x + i ≥ fbW ∨ y + j ≥ fbH then none
      else if (j * w + i) * 4 + 4 ≤ data.length then
        some (x + i, y + j,
          (data.getD ((j * w + i) * 4 + 3) 0) <<< 24 |||
          (data.getD ((j * w + i) * 4 + 2) 0) <<< 16 |||
          (data.getD ((j * w + i) * 4 + 1) 0) <<< 8 |||
          data.getD ((j * w + i) * 4) 0)
      else none))).flatten

/-- Model of `_handle_raw_rectangle` (lines 193-210): one `_recv(w*h*4)` for the
payload, then the clipped pixel writes.  `none` models the read raising. -/
def handle_raw_rectangle (x y w h fbW fbH : Nat) (s : List Nat) :
    Option (List (Nat × Nat × Nat) × List Nat) :=
  match readN (w * h * 4) s with
  | none => none
  | some (data, rest) => some (rawRectWrites x y w h fbW fbH data, rest)

/-- Outcome of processing the rectangles of one FramebufferUpdate. -/
inductive FbuRes where
  | ok : List (Nat × Nat × Nat) → List Nat → FbuRes
  | unsupported : Int → List Nat → FbuRes
  | closed : FbuRes
deriving DecidableEq

/-- The rectangle loop of `_handle_framebuffer_update` (lines 174-184):
read a 12-byte header per rectangle, handle Raw payloads, and raise
UnsupportedEncoding (`ValueError`) on any other encoding id, with the
stream still positioned right after the offending header. -/
def processRects (fbW fbH : Nat) : Nat → List Nat → FbuRes
  | 0, s => .ok [] s
  | n + 1, s =>
    match readN 12 s with
    | none => .closed
    | some (hdr, rest) =>
      if be32s (hdr.drop 8) = 0 then
        match handle_raw_rectangle (be16 (hdr.take 2)) (be16 ((hdr.drop 2).take 2))
            (be16 ((hdr.drop 4).take 2)) (be16 ((hdr.drop 6).take 2)) fbW fbH rest with
        | none => .closed
        | some (ws, rest2) =>
          match processRects fbW fbH n rest2 with
          | .ok ws2 rest3 => .ok (ws ++ ws2) rest3
          | r => r
      else .unsupported (be32s (hdr.drop 8)) rest

/-- Model of `_handle_framebuffer_update` (lines 168-184): one padding byte, a
16-bit rectangle count, then the rectangle loop. -/
def handle_framebuffer_update (fbW fbH : Nat) (s : List Nat) : FbuRes :=
  match readN 1 s with
  | none => .closed
  | some (_, s1) =>
    match readN 2 s1 with
    | none => .closed
    | some (cnt, s2) => processRects fbW fbH (be16 cnt) s2

/-- Model of `_handle_color_map_entries` (lines 212-218): padding, first index,
count, then 6 bytes per colour, all discarded. -/
def readColorMap (p : List Nat) : Option Unit :=
  match readN 1 p with
  | none => none
  | some (_, p1) =>
    match readN 2 p1 with
    | none => none
    | some (_, p2) =>
      match readN 2 p2 with
      | none => none
      | some (cnt, p3) =>
        match readN (be16 cnt * 6) p3 with
        | none => none
        | some _ => some ()

/-- Model of `_handle_server_cut_text` (lines 220-224): 3 padding bytes, a 32-bit
length, then that many bytes, all discarded. -/
def readCutText (p : List Nat) : Option Unit :=
  match readN 3 p with
  | none => none
  | some (_, p1) =>
    match readN 4 p1 with
    | none => none
    | some (len4, p2) =>
      match readN (be32 len4) p2 with
      | none => none
      | some _ => some ()

/-! ## The main message loop (lines 136-156)

Each loop iteration reads one message-type byte (or hits an idle timeout,
caught at line 152) and dispatches.  Inputs are modelled as a finite trace
of iteration inputs; the state records the running flag, the fatal error
if any, the client messages sent from the loop, the accumulated pixel
writes, and the number of Bell messages seen.  An exception other than an
idle timeout ends the thread (recorded in the `err` field); the code contains
no ProtocolViolation or Unresponsive outcome and no timeout counter. -/

/-- A fatal error that terminates `_vnc_thread`. -/
inductive VncErr where
  | unsupportedEncoding : Int → VncErr
  | connectionClosed : VncErr
deriving DecidableEq

/-- What one loop iteration observes: an idle read timeout, or a server
message of the given type byte with the payload its handler consumes. -/
inductive LoopIn where
  | timeout : LoopIn
  | msg : Nat → List Nat → LoopIn
deriving DecidableEq

/-- Observable loop state. -/
structure LoopState where
  running : Bool
  err : Option VncErr
  sent : List (List Nat)
  writes : List (Nat × Nat × Nat)
  bells : Nat
deriving DecidableEq

/-- Loop state right after the handshake. -/
def initLoop : LoopState :=
  { running := true, err := none, sent := [], writes := [], bells := 0 }

/-- One iteration of the `while self.is_running` loop body. -/
def loopStep (fbW fbH : Nat) (st : LoopState) : LoopIn → LoopState
  | .timeout =>
    if st.running then
      { st with sent := st.sent ++ [fbUpdateRequest 1 fbW fbH] }
    else st
  | .msg t p =>
    if t = 0 then
      match handle_framebuffer_update fbW fbH p with
      | .ok ws _ =>
        { st with writes := st.writes ++ ws,
                  sent := st.sent ++ [fbUpdateRequest 1 fbW fbH] }
      | .unsupported e _ =>
        { st with running := false, err := some (.unsupportedEncoding e) }
      | .closed => { st with running := false, err := some .connectionClosed }
    else if t = 1 then
      match readColorMap p with
      | some _ => st
      | none => { st with running := false, err := some .connectionClosed }
    else if t = 2 then { st with bells := st.bells + 1 }
    else if t = 3 then
      match readCutText p with
      | some _ => st
      | none => { st with running := false, err := some .connectionClosed }
    else st

/-- Run the loop over a finite input trace, stopping when the running flag
clears (the `while self.is_running` condition). -/
def loopRun (fbW fbH : Nat) : LoopState → List LoopIn → LoopState
  | st, [] => st
  | st, e :: es => if st.running then loopRun fbW fbH (loopStep fbW fbH st e) es else st

/-! ## Shared helper lemmas -/

set_option maxRecDepth 4000 in
/-- Bit reversal of a byte is self-inverse. -/
lemma reverseByte_involutive : ∀ b < 256, reverseByte (reverseByte b) = b := by
  decide

/-- A DES-encrypted block is always exactly 8 bytes (the final permutation
produces 64 bits, repacked into bytes). -/
lemma des_encrypt_block_length (key block : List Nat) :
    (des_encrypt_block key block).length = 8 := rfl

/-- Under an always-true running flag, a successful `recv` returns exactly
the requested number of bytes. -/
lemma recv_ok_length (n : Nat) :
    ∀ (evs : List RecvEv) (flags : List Bool) (acc d : List Nat),
      (∀ b ∈ flags, b = true) → acc.length ≤ n →
      recv n flags evs acc = RecvOut.ok d → d.length = n := by
  intro evs
  induction evs with
  | nil =>
    intro flags acc d hf hacc h
    have hflag : flags.headD true = true := by
      cases flags with
      | nil => rfl
      | cons b bs => exact hf b (List.mem_cons_self b bs)
    by_cases hlt : acc.length < n
    · rw [recv, if_pos ⟨hlt, hflag⟩] at h
      exact absurd h (by simp)
    · rw [recv, if_neg (by tauto)] at h
      have hda := RecvOut.ok.inj h
      subst hda
      omega
  | cons ev rest ih =>
    intro flags acc d hf hacc h
    have hflag : flags.headD true = true := by
      cases flags with
      | nil => rfl
      | cons b bs => exact hf b (List.mem_cons_self b bs)
    by_cases hlt : acc.length < n
    · cases ev with
      | tmo =>
        rw [recv, if_pos ⟨hlt, hflag⟩] at h
        exact absurd h (by simp)
      | chunk c =>
        cases c with
        | nil =>
          rw [recv, if_pos ⟨hlt, hflag⟩] at h
          exact absurd h (by simp)
        | cons b bs =>
          rw [recv, if_pos ⟨hlt, hflag⟩] at h
          refine ih flags.tail _ d (fun x hx => hf x (List.mem_of_mem_tail hx)) ?_ h
          simp only [List.length_append, List.length_take, List.length_cons]
          omega
    · cases ev with
      | tmo =>
        rw [recv, if_neg (by tauto)] at h
        have hda := RecvOut.ok.inj h
        subst hda
        omega
      | chunk c =>
        cases c with
        | nil =>
          rw [recv, if_neg (by tauto)] at h
          have hda := RecvOut.ok.inj h
          subst hda
          omega
        | cons b bs =>
          rw [recv, if_neg (by tauto)] at h
          have hda := RecvOut.ok.inj h
          subst hda
          omega

/-- Running the loop on idle timeouts only appends keepalive requests. -/
lemma loopRun_timeouts (fbW fbH : Nat) :
    ∀ (n : Nat) (st : LoopState), st.running = true →
      loopRun fbW fbH st (List.replicate n LoopIn.timeout) =
        { st with sent := st.sent ++ List.replicate n (fbUpdateRequest 1 fbW fbH) } := by
  intro n
  induction n with
  | zero => intro st hr; simp [loopRun]
  | succ n ih =>
    intro st hr
    rw [List.replicate_succ, loopRun, if_pos hr]
    have hstep : loopStep fbW fbH st LoopIn.timeout =
        { st with sent := st.sent ++ [fbUpdateRequest 1 fbW fbH] } := by
      simp [loopStep, hr]
    rw [hstep, ih _ (by simp [hr])]
    simp [List.replicate_succ]

/-! ## Claim theorems -/

/-- Claim C1 (counterexample): the claim says the response written to the
transport is exactly 16 bytes for every password and 16-byte challenge; at
password "lise" and the all-zero challenge the code produces a 24-byte
response, because `encrypt(..., padding=True)` appends a full PKCS#5
padding block before encrypting. -/
theorem c1_response_is_24_bytes_counterexample :
    (vnc_auth_response [108, 105, 115, 101] (List.replicate 16 0)).length = 24 ∧
    (vnc_auth_response [108, 105, 115, 101] (List.replicate 16 0)).length ≠ 16 := by
  decide

/-- Claim C1 (amended): the client encrypts the 16-byte challenge plus an
appended 8-byte PKCS#5 padding block (eight bytes of value 8) as three
independent 8-byte blocks using single-DES in ECB mode under the
bit-reversed password key — no chaining between blocks — and the response
written to the transport is exactly 24 bytes long, for every password and
every 16-byte challenge. -/
theorem c1_auth_response_three_ecb_blocks (pw ch : List Nat)
    (hch : ch.length = 16) :
    vnc_auth_response pw ch =
      des_encrypt_block (get_des_key pw) (ch.take 8) ++
      (des_encrypt_block (get_des_key pw) ((ch.drop 8).take 8) ++
       des_encrypt_block (get_des_key pw) (List.replicate 8 8)) ∧
    (vnc_auth_response pw ch).length = 24 := by
  rcases ch with _ | ⟨a1, _ | ⟨a2, _ | ⟨a3, _ | ⟨a4, _ | ⟨a5, _ | ⟨a6, _ | ⟨a7,
    _ | ⟨a8, _ | ⟨a9, _ | ⟨a10, _ | ⟨a11, _ | ⟨a12, _ | ⟨a13, _ | ⟨a14,
    _ | ⟨a15, _ | ⟨a16, t⟩⟩⟩⟩⟩⟩⟩⟩⟩⟩⟩⟩⟩⟩⟩⟩ <;> simp at hch
  subst hch
  have hpad : pkcs5pad [a1, a2, a3, a4, a5, a6, a7, a8, a9, a10, a11, a12, a13, a14, a15, a16] =
      [a1, a2, a3, a4, a5, a6, a7, a8, a9, a10, a11, a12, a13, a14, a15, a16] ++
        List.replicate 8 8 := by
    unfold pkcs5pad
    norm_num
  unfold vnc_auth_response des_encrypt_padded
  rw [hpad]
  exact ⟨rfl, rfl⟩

/-- Claim C1 (witness): the amended statement evaluated at password "lise"
and the all-zero challenge. -/
theorem c1_auth_response_three_ecb_blocks_witness :
    (List.replicate 16 0 : List Nat).length = 16 ∧
    (vnc_auth_response [108, 105, 115, 101] (List.replicate 16 0) =
      des_encrypt_block (get_des_key [108, 105, 115, 101]) ((List.replicate 16 0).take 8) ++
      (des_encrypt_block (get_des_key [108, 105, 115, 101]) (((List.replicate 16 0).drop 8).take 8) ++
       des_encrypt_block (get_des_key [108, 105, 115, 101]) (List.replicate 8 8)) ∧
     (vnc_auth_response [108, 105, 115, 101] (List.replicate 16 0)).length = 24) :=
  ⟨by decide, c1_auth_response_three_ecb_blocks [108, 105, 115, 101] (List.replicate 16 0) (by decide)⟩

/-- Claim C2 (code divergence): after ServerInit the client sends exactly
two messages before reading any server message — SetEncodings (type byte
2) and then the non-incremental FramebufferUpdateRequest (type byte 3).
No SetPixelFormat message (type byte 0) is ever sent, contradicting the
claimed SetPixelFormat-then-SetEncodings order. -/
theorem c2_no_set_pixel_format_sent :
    (negotiationMessages 800 600).map (fun m => m.headD 99) = [2, 3] ∧
    negotiationMessages 800 600 =
      [[2, 0, 0, 1, 0, 0, 0, 0], [3, 0, 0, 0, 0, 0, 3, 32, 2, 88]] := by
  decide

/-- Claim C3 (code divergence): for the standard 12-byte version line
"RFB 003.008" followed by a newline, the client echoes back only 11 bytes:
`_recv(12).decode().strip()` removes the trailing newline before the bytes
are re-encoded and sent. -/
theorem c3_version_echo_stripped :
    echoVersion [82, 70, 66, 32, 48, 48, 51, 46, 48, 48, 56, 10] =
      [82, 70, 66, 32, 48, 48, 51, 46, 48, 48, 56] ∧
    (echoVersion [82, 70, 66, 32, 48, 48, 51, 46, 48, 48, 56, 10]).length = 11 := by
  decide

/-- Claim C4 (counterexample): with the running flag observed false,
`_recv(1)` returns zero bytes without raising, even though a byte is
available on the socket — the loop guard `and self.is_running` exits the
accumulation loop early. -/
theorem c4_short_read_on_cleared_flag_counterexample :
    recv 1 [false] [RecvEv.chunk [7]] [] = RecvOut.ok [] ∧
    ([] : List Nat).length ≠ 1 := by
  decide

/-- Claim C4 (amended): as long as the running flag is observed true at
every iteration check, the exact-length read either returns exactly n
bytes or fails with a timeout or connection-closed error; a short return
without an error can happen only when the flag is cleared concurrently. -/
theorem c4_recv_exact_when_running (n : Nat) (flags : List Bool)
    (evs : List RecvEv) (d : List Nat)
    (hf : ∀ b ∈ flags, b = true)
    (h : recv n flags evs [] = RecvOut.ok d) : d.length = n :=
  recv_ok_length n evs flags [] d hf (by simp) h

/-- Claim C4 (witness): the amended statement at a concrete trace that
delivers two bytes for a two-byte read with the flag never cleared. -/
theorem c4_recv_exact_when_running_witness :
    (∀ b ∈ ([] : List Bool), b = true) ∧ ([1, 2] : List Nat).length = 2 :=
  ⟨by simp, c4_recv_exact_when_running 2 [] [RecvEv.chunk [1, 2]] [1, 2] (by simp) (by decide)⟩

/-- Claim C5 (counterexample): an unknown message-type byte (4) does not
terminate the loop — no error is recorded, the loop stays running, and a
subsequent Bell message (type 2) is still processed. -/
theorem c5_unknown_type_continues_counterexample :
    (loopRun 800 600 initLoop [LoopIn.msg 4 [], LoopIn.msg 2 []]).err = none ∧
    (loopRun 800 600 initLoop [LoopIn.msg 4 [], LoopIn.msg 2 []]).running = true ∧
    (loopRun 800 600 initLoop [LoopIn.msg 4 [], LoopIn.msg 2 []]).bells = 1 := by
  decide

/-- Claim C5 (amended): reading any server message-type byte other than 0,
1, 2 or 3 leaves the loop state completely unchanged (the byte is merely
logged) and the loop continues with the next message; no ProtocolViolation
failure exists in the code. -/
theorem c5_unknown_type_ignored (fbW fbH t : Nat) (p : List Nat)
    (st : LoopState) (h0 : t ≠ 0) (h1 : t ≠ 1) (h2 : t ≠ 2) (h3 : t ≠ 3) :
    loopStep fbW fbH st (LoopIn.msg t p) = st := by
  simp [loopStep, h0, h1, h2, h3]

/-- Claim C5 (witness): the amended statement at message type 4. -/
theorem c5_unknown_type_ignored_witness :
    ((4 : Nat) ≠ 0 ∧ (4 : Nat) ≠ 1 ∧ (4 : Nat) ≠ 2 ∧ (4 : Nat) ≠ 3) ∧
    loopStep 800 600 initLoop (LoopIn.msg 4 []) = initLoop :=
  ⟨by decide,
   c5_unknown_type_ignored 800 600 4 [] initLoop (by decide) (by decide) (by decide) (by decide)⟩

/-- Claim C6 (counterexample): after 50 consecutive idle timeouts the loop
is still running with no error of any kind — the code never fails
Unresponsive, because it keeps no count of consecutive timeouts. -/
theorem c6_fifty_timeouts_still_running_counterexample :
    (loopRun 800 600 initLoop (List.replicate 50 LoopIn.timeout)).err = none ∧
    (loopRun 800 600 initLoop (List.replicate 50 LoopIn.timeout)).running = true := by
  decide

/-- Claim C6 (amended): on every idle read timeout the client re-issues an
incremental update request and continues; for every number n of
consecutive timeouts the loop remains running with no failure, having sent
exactly n keepalive requests — the retry is unbounded and no Unresponsive
failure exists. -/
theorem c6_keepalive_retries_unbounded (fbW fbH n : Nat) (st : LoopState)
    (hr : st.running = true) :
    loopRun fbW fbH st (List.replicate n LoopIn.timeout) =
      { st with sent := st.sent ++ List.replicate n (fbUpdateRequest 1 fbW fbH) } :=
  loopRun_timeouts fbW fbH n st hr

/-- Claim C6 (witness): the amended statement for three consecutive
timeouts starting from the post-handshake state. -/
theorem c6_keepalive_retries_unbounded_witness :
    initLoop.running = true ∧
    loopRun 800 600 initLoop (List.replicate 3 LoopIn.timeout) =
      { initLoop with sent := initLoop.sent ++ List.replicate 3 (fbUpdateRequest 1 800 600) } :=
  ⟨by decide, c6_keepalive_retries_unbounded 800 600 3 initLoop (by decide)⟩

/-- Claim C7: whenever the next 12-byte rectangle header carries a nonzero
encoding id, the rectangle loop fails with UnsupportedEncoding and the
stream rests exactly 12 bytes further — no payload byte of that rectangle
is consumed. -/
theorem c7_nonzero_encoding_fails_before_payload (fbW fbH n : Nat)
    (s : List Nat) (hlen : 12 ≤ s.length)
    (henc : be32s ((s.take 12).drop 8) ≠ 0) :
    processRects fbW fbH (n + 1) s =
      FbuRes.unsupported (be32s ((s.take 12).drop 8)) (s.drop 12) := by
  simp [processRects, readN, hlen, henc]

/-- Claim C7 (witness): a rectangle header naming encoding 1 with payload
bytes behind it; the failure leaves those payload bytes unread. -/
theorem c7_nonzero_encoding_fails_before_payload_witness :
    (12 ≤ ([0, 0, 0, 0, 0, 2, 0, 2, 0, 0, 0, 1, 9, 9] : List Nat).length ∧
     be32s ((([0, 0, 0, 0, 0, 2, 0, 2, 0, 0, 0, 1, 9, 9] : List Nat).take 12).drop 8) ≠ 0) ∧
    processRects 10 10 1 [0, 0, 0, 0, 0, 2, 0, 2, 0, 0, 0, 1, 9, 9] =
      FbuRes.unsupported
        (be32s ((([0, 0, 0, 0, 0, 2, 0, 2, 0, 0, 0, 1, 9, 9] : List Nat).take 12).drop 8))
        (([0, 0, 0, 0, 0, 2, 0, 2, 0, 0, 0, 1, 9, 9] : List Nat).drop 12) :=
  ⟨⟨by decide, by decide⟩,
   c7_nonzero_encoding_fails_before_payload 10 10 0
     [0, 0, 0, 0, 0, 2, 0, 2, 0, 0, 0, 1, 9, 9] (by decide) (by decide)⟩

/-- Claim C8: every pixel write produced while applying a Raw rectangle —
including rectangles overlapping or fully outside the framebuffer — lands
at coordinates strictly inside the framebuffer; out-of-bounds positions
are skipped by the guard. -/
theorem c8_raw_writes_in_bounds (x y w h fbW fbH : Nat) (data : List Nat)
    (px py c : Nat)
    (hmem : (px, py, c) ∈ rawRectWrites x y w h fbW fbH data) :
    px < fbW ∧ py < fbH := by
  simp only [rawRectWrites, List.mem_flatten, List.mem_map] at hmem
  obtain ⟨_, ⟨j, hj, rfl⟩, hp⟩ := hmem
  rw [List.mem_filterMap] at hp
  obtain ⟨i, _, hfi⟩ := hp
  by_cases hb : x + i ≥ fbW ∨ y + j ≥ fbH
  · rw [if_pos hb] at hfi
    exact absurd hfi (by simp)
  · rw [if_neg hb] at hfi
    push_neg at hb
    by_cases hd : (j * w + i) * 4 + 4 ≤ data.length
    · rw [if_pos hd] at hfi
      simp only [Option.some.injEq, Prod.mk.injEq] at hfi
      obtain ⟨he1, he2, -⟩ := hfi
      omega
    · rw [if_neg hd] at hfi
      exact absurd hfi (by simp)

/-- Claim C8 (witness): a 2-by-2 rectangle at the origin of a 1-by-1
framebuffer produces a single clipped write, at (0,0), in bounds. -/
theorem c8_raw_writes_in_bounds_witness :
    ((0, 0, 67305985) ∈ rawRectWrites 0 0 2 2 1 1 [1, 2, 3, 4, 5, 6, 7, 8, 9, 10, 11, 12, 13, 14, 15, 16]) ∧
    (0 < 1 ∧ 0 < 1) :=
  ⟨by decide,
   c8_raw_writes_in_bounds 0 0 2 2 1 1 [1, 2, 3, 4, 5, 6, 7, 8, 9, 10, 11, 12, 13, 14, 15, 16]
     0 0 67305985 (by decide)⟩

/-- Claim C9: deriving the DES key and bit-reversing each of its bytes
again reproduces exactly the NUL-padded (or truncated) password bytes, for
every password of length at most 8 whose bytes are below 256. -/
theorem c9_key_derivation_self_inverse (pw : List Nat)
    (hlen : pw.length ≤ 8) (hb : ∀ b ∈ pw, b < 256) :
    (get_des_key pw).map reverseByte = pw ++ List.replicate (8 - pw.length) 0 := by
  have hpt : padTrunc8 pw = pw ++ List.replicate (8 - pw.length) 0 := by
    apply List.take_of_length_le
    simp only [List.length_append, List.length_replicate]
    omega
  unfold get_des_key
  rw [hpt, List.map_map]
  have hcongr : ∀ a ∈ pw ++ List.replicate (8 - pw.length) 0,
      (reverseByte ∘ reverseByte) a = id a := by
    intro a ha
    rcases List.mem_append.mp ha with h | h
    · exact reverseByte_involutive a (hb a h)
    · have h0 : a = 0 := List.eq_of_mem_replicate h
      subst h0
      decide
  rw [List.map_congr_left hcongr, List.map_id]

/-- Claim C9 (witness): the statement at the four-byte password "lise". -/
theorem c9_key_derivation_self_inverse_witness :
    (([108, 105, 115, 101] : List Nat).length ≤ 8 ∧
     ∀ b ∈ ([108, 105, 115, 101] : List Nat), b < 256) ∧
    (get_des_key [108, 105, 115, 101]).map reverseByte =
      [108, 105, 115, 101] ++ List.replicate (8 - ([108, 105, 115, 101] : List Nat).length) 0 :=
  ⟨⟨by decide, by decide⟩,
   c9_key_derivation_self_inverse [108, 105, 115, 101] (by decide) (by decide)⟩

/-- Claim C10: whenever the stream holds at least w*h*4 payload bytes, the
Raw-rectangle handler consumes exactly w*h*4 of them — independently of
the rectangle position and the framebuffer bounds, so even a fully
out-of-bounds rectangle advances the stream by its full payload. -/
theorem c10_raw_rectangle_consumes_full_payload (x y w h fbW fbH : Nat)
    (s : List Nat) (hlen : w * h * 4 ≤ s.length) :
    handle_raw_rectangle x y w h fbW fbH s =
      some (rawRectWrites x y w h fbW fbH (s.take (w * h * 4)), s.drop (w * h * 4)) := by
  simp [handle_raw_rectangle, readN, hlen]

/-- Claim C10 (witness): a fully out-of-bounds 1-by-1 rectangle still
consumes its 4 payload bytes, producing no writes and leaving the rest of
the stream intact. -/
theorem c10_raw_rectangle_consumes_full_payload_witness :
    (1 * 1 * 4 ≤ ([9, 9, 9, 9, 7] : List Nat).length) ∧
    handle_raw_rectangle 5 5 1 1 2 2 [9, 9, 9, 9, 7] =
      some (rawRectWrites 5 5 1 1 2 2 (([9, 9, 9, 9, 7] : List Nat).take (1 * 1 * 4)),
        ([9, 9, 9, 9, 7] : List Nat).drop (1 * 1 * 4)) :=
  ⟨by decide, c10_raw_rectangle_consumes_full_payload 5 5 1 1 2 2 [9, 9, 9, 9, 7] (by decide)⟩

end Vnc
